import Mathlib

/-!
Verification of the Regina parking-ticket ETL pipeline
(`download_parking_data.py`) against its natural-language specification.

The Python code is shallowly embedded: strings are `List Char` / `String`,
pandas missing values (`NaN` / `NaT` / `None`) are `none : Option _`, a
DataFrame is a list of rows together with column-presence flags, and the
two regular expressions of `split_location` are translated into explicit
backtracking-faithful matching functions.  All definitions are executable,
so concrete runs of the embedded pipeline can be checked with `decide`.

Modelling conventions (ASCII data, as in the source dataset):
* `\s` of Python `re` is modelled on the ASCII whitespace characters
  space, tab, newline, carriage return, vertical tab and form feed;
* `\d` is modelled on the ASCII digits;
* `str.title()` / `str.upper()` are modelled on ASCII letters;
* `.` in a regex matches any character except a newline; since the code
  strips the subject string first, `$` is modelled as end of string.
-/

/-- Python `\s` (ASCII range): space, tab, newline, CR, vertical tab, form feed. -/
def pySpace (c : Char) : Bool :=
  c.toNat = 32 || c.toNat = 9 || c.toNat = 10 || c.toNat = 13 ||
  c.toNat = 11 || c.toNat = 12

/-- Python `\d` (ASCII range): the characters '0'..'9'. -/
def pyDigit (c : Char) : Bool :=
  48 ≤ c.toNat && c.toNat ≤ 57

/-- ASCII letter (a "cased" character for `str.title()`). -/
def pyAlpha (c : Char) : Bool :=
  (65 ≤ c.toNat && c.toNat ≤ 90) || (97 ≤ c.toNat && c.toNat ≤ 122)

/-- Python `str.strip()`: drop leading and trailing whitespace. -/
def pyStrip (s : List Char) : List Char :=
  ((s.dropWhile pySpace).reverse.dropWhile pySpace).reverse

/-- Helper for `pyTitle`; the flag records whether the previous character
was a cased (alphabetic) character. -/
def pyTitleAux : Bool → List Char → List Char
  | _, [] => []
  | prevAlpha, c :: cs =>
    if pyAlpha c then
      (if prevAlpha then c.toLower else c.toUpper) :: pyTitleAux true cs
    else
      c :: pyTitleAux false cs

/-- Python `str.title()`: the first letter of every run of letters is
uppercased, the following letters are lowercased. -/
def pyTitle (s : List Char) : List Char := pyTitleAux false s

/-- Python `str.upper()` (ASCII model). -/
def pyUpper (s : String) : String := String.mk (s.data.map Char.toUpper)

/-- Helper for `pyReplace`.  The `Nat` argument counts characters of a
just-matched occurrence that still have to be skipped. -/
def pyReplaceAux (old new : List Char) : Nat → List Char → List Char
  | _, [] => []
  | Nat.succ k, _ :: rest => pyReplaceAux old new k rest
  | 0, c :: rest =>
    if old ≠ [] ∧ old.isPrefixOf (c :: rest) then
      new ++ pyReplaceAux old new (old.length - 1) rest
    else
      c :: pyReplaceAux old new 0 rest

/-- Python `str.replace(old, new)` with `regex=False`: replace every
non-overlapping occurrence of `old`, scanning left to right. -/
def pyReplace (old new s : List Char) : List Char :=
  pyReplaceAux old new 0 s

/-!  ### The two regular expressions of `split_location`

First regex: `^(.+?)\s+(\d+\s+.+)$` (lazy first group).
Second regex: `^(WEST SIDE|...|ADJACENT TO)\s+(.+)$`, `re.IGNORECASE`.
-/

/-- Match `\s+(.+)$` against `s`, returning the second group.  The first
`k` characters of `s` are consumed by `\s+` (the caller guarantees that at
most `(s.takeWhile pySpace).length` characters are whitespace); `\s+` is
greedy, so the largest workable `k` wins, and `.` rejects newlines. -/
def backtrackRest (s : List Char) : Nat → Option (List Char)
  | 0 => none
  | Nat.succ k =>
    let rest := s.drop (k + 1)
    if rest ≠ [] ∧ rest.all (fun c => c ≠ '\n') then some rest
    else backtrackRest s k

/-- Match `\s+(.+)$` against `s` (backtracking-faithful), returning the
group captured by `(.+)`. -/
def spaceThenRest (s : List Char) : Option (List Char) :=
  backtrackRest s (s.takeWhile pySpace).length

/-- Does `s` match `\d+\s+.+` exactly (anchored both sides)? -/
def matchNumThenRest (s : List Char) : Bool :=
  (s.takeWhile pyDigit ≠ []) && (spaceThenRest (s.dropWhile pyDigit)).isSome

/-- Matching of `^(.+?)\s+(\d+\s+.+)$`.  The lazy group `(.+?)` grows one
character at a time (accumulated reversed in `g1rev`); at each boundary the
greedy `\s+` must swallow the maximal whitespace run, after which the rest
must match `\d+\s+.+` to the end.  `(.+?)` cannot cross a newline.
Returns the two captured groups. -/
def reSplitNum (g1rev : List Char) : List Char → Option (List Char × List Char)
  | [] => none
  | c :: cs =>
    if g1rev ≠ [] ∧ pySpace c ∧ matchNumThenRest ((c :: cs).dropWhile pySpace) then
      some (g1rev.reverse, (c :: cs).dropWhile pySpace)
    else if c = '\n' then none
    else reSplitNum (c :: g1rev) cs

/-- Case-insensitive literal match of `w` (given uppercase) at the front of
`s`; returns the matched slice of `s` (original case) and the remainder. -/
def stripCI : List Char → List Char → Option (List Char × List Char)
  | [], s => some ([], s)
  | _ :: _, [] => none
  | a :: as, c :: cs =>
    if c.toUpper = a then
      (stripCI as cs).map (fun p => (c :: p.1, p.2))
    else none

/-- The ten directional/relational alternatives of the second regex, in the
order they appear in the pattern. -/
def directionWords : List (List Char) :=
  [("WEST SIDE").data, ("EAST SIDE").data, ("NORTH SIDE").data,
   ("SOUTH SIDE").data, ("IN FRONT OF").data, ("OPPOSITE").data,
   ("BESIDE").data, ("BEHIND").data, ("NEAR").data, ("ADJACENT TO").data]

/-- Matching of `^(W1|...|Wn)\s+(.+)$` with `re.IGNORECASE`: try each
alternative in order; after a literal match, `\s+(.+)$` must match the
remainder.  Returns the two captured groups. -/
def matchDirection : List (List Char) → List Char → Option (List Char × List Char)
  | [], _ => none
  | w :: ws, s =>
    match stripCI w s with
    | some (o, r) =>
      (match spaceThenRest r with
       | some rem => some (o, rem)
       | none => matchDirection ws s)
    | none => matchDirection ws s

/-- `re.match(r"^\d", s)`: does the string start with a digit? -/
def digitLeads : List Char → Bool
  | c :: _ => pyDigit c
  | [] => false

/-- The raw split of `parse_location` before formatting: location and
address as optional character lists (`none` mirrors the Python `None`).
Mirrors the source exactly: first regex with the leading-digit check on the
stripped first group, then the direction-word regex, else the whole string
is the address. -/
def splitRaw (s : List Char) : Option (List Char) × Option (List Char) :=
  match reSplitNum [] s with
  | some (g1, g2) =>
    if digitLeads (pyStrip g1) then (none, some s)
    else (some (pyStrip g1), some (pyStrip g2))
  | none =>
    match matchDirection directionWords s with
    | some (g1, g2) => (some (pyStrip g1), some (pyStrip g2))
    | none => (none, some s)

/-- `parse_location` of the source: `None` input propagates, otherwise the
stripped string is split, the location is title-cased if truthy, and the
address is title-cased and suffixed with ", Regina, Saskatchewan" if
truthy (the Python `if location:` / `if address:` guards are falsy for
both `None` and the empty string). -/
def parse_location (violLoc : Option String) : Option String × Option String :=
  match violLoc with
  | none => (none, none)
  | some v =>
    let p := splitRaw (pyStrip v.data)
    (p.1.map (fun l => String.mk (if l ≠ [] then pyTitle l else l)),
     p.2.map (fun a =>
       String.mk (if a ≠ [] then pyTitle a ++ (", Regina, Saskatchewan").data else a)))

/-- The location/address split exactly as the specification words it: the
same four-step heuristic, but with the formatting rule "a non-null location
is title-cased; a non-null address is title-cased and has the literal
suffix ', Regina, Saskatchewan' appended" applied unconditionally. -/
def claimHeuristic (violLoc : Option String) : Option String × Option String :=
  match violLoc with
  | none => (none, none)
  | some v =>
    let p := splitRaw (pyStrip v.data)
    (p.1.map (fun l => String.mk (pyTitle l)),
     p.2.map (fun a => String.mk (pyTitle a ++ (", Regina, Saskatchewan").data)))

/-!  ### Timestamps and calendar arithmetic

The code reads a `pd.Timestamp` only through `.hour`, `.dt.date`,
`.dt.time`, `.dt.dayofweek` and `.dt.day_name()`; a timestamp is modelled
by its six calendar fields and those accessors are computed from them.
-/

/-- A calendar date (`datetime.date`). -/
structure PyDate where
  year : Nat
  month : Nat
  day : Nat
deriving DecidableEq

/-- A time of day (`datetime.time`). -/
structure PyTime where
  hour : Nat
  minute : Nat
  second : Nat
deriving DecidableEq

/-- A parsed timestamp (`pd.Timestamp`). -/
structure PyTimestamp where
  year : Nat
  month : Nat
  day : Nat
  hour : Nat
  minute : Nat
  second : Nat
deriving DecidableEq

def tsDate (ts : PyTimestamp) : PyDate := ⟨ts.year, ts.month, ts.day⟩

def tsTime (ts : PyTimestamp) : PyTime := ⟨ts.hour, ts.minute, ts.second⟩

def isLeap (y : Nat) : Bool := (y % 4 = 0 && y % 100 ≠ 0) || y % 400 = 0

def daysInMonth (y m : Nat) : Nat :=
  if m = 2 then (if isLeap y then 29 else 28)
  else if m = 4 ∨ m = 6 ∨ m = 9 ∨ m = 11 then 30
  else 31

/-- Month offsets of Sakamoto's day-of-week algorithm. -/
def sakTable : List Nat := [0, 3, 2, 5, 0, 3, 5, 1, 4, 6, 2, 4]

/-- `Timestamp.dayofweek` of pandas: Monday = 0, ..., Sunday = 6.
Sakamoto's method yields Sunday = 0, shifted here to the pandas origin. -/
def dayofweek (ts : PyTimestamp) : Nat :=
  let y := if ts.month < 3 then ts.year - 1 else ts.year
  let s := (y + y / 4 - y / 100 + y / 400 + sakTable.getD (ts.month - 1) 0 + ts.day) % 7
  (s + 6) % 7

def dayNames : List String :=
  [("Monday"), ("Tuesday"), ("Wednesday"), ("Thursday"),
   ("Friday"), ("Saturday"), ("Sunday")]

/-- `Series.dt.day_name()` of pandas. -/
def dayName (ts : PyTimestamp) : String := dayNames.getD (dayofweek ts) ("")

/-- Read one or two ASCII digits (as `strptime` does for `%d`, `%m`, `%H`,
`%M`, `%S`), greedily. -/
def takeDigits2 : List Char → Option (Nat × List Char)
  | [] => none
  | c1 :: rest =>
    if pyDigit c1 then
      match rest with
      | c2 :: rest2 =>
        if pyDigit c2 then some ((c1.toNat - 48) * 10 + (c2.toNat - 48), rest2)
        else some (c1.toNat - 48, rest)
      | [] => some (c1.toNat - 48, [])
    else none

/-- Read exactly four ASCII digits (as `strptime` does for `%Y`). -/
def takeDigits4 : List Char → Option (Nat × List Char)
  | c1 :: c2 :: c3 :: c4 :: rest =>
    if pyDigit c1 && pyDigit c2 && pyDigit c3 && pyDigit c4 then
      some (((c1.toNat - 48) * 10 + (c2.toNat - 48)) * 100 +
              (c3.toNat - 48) * 10 + (c4.toNat - 48), rest)
    else none
  | _ => none

def expectChar (c : Char) : List Char → Option (List Char)
  | d :: rest => if d = c then some rest else none
  | [] => none

/-- `pd.to_datetime(value, format="%d/%m/%Y %H:%M:%S", errors="coerce")`
on a single string: parse against the fixed format (consuming the whole
string) and validate the calendar fields; any failure coerces to `none`
(NaT), never raises. -/
def parseDT (s : String) : Option PyTimestamp := do
  let (d, r1) ← takeDigits2 s.data
  let r2 ← expectChar '/' r1
  let (m, r3) ← takeDigits2 r2
  let r4 ← expectChar '/' r3
  let (y, r5) ← takeDigits4 r4
  let r6 ← expectChar ' ' r5
  let (hh, r7) ← takeDigits2 r6
  let r8 ← expectChar ':' r7
  let (mi, r9) ← takeDigits2 r8
  let r10 ← expectChar ':' r9
  let (ss, r11) ← takeDigits2 r10
  if r11 = [] ∧ 1 ≤ m ∧ m ≤ 12 ∧ 1 ≤ d ∧ d ≤ daysInMonth y m ∧
      hh ≤ 23 ∧ mi ≤ 59 ∧ ss ≤ 59 then
    some ⟨y, m, d, hh, mi, ss⟩
  else none

/-!  ### Field-derivation rules -/

/-- `categorize_time` of the source: `None` for a missing timestamp (the
`pd.isna` guard), otherwise the hour is bucketed into four half-open
ranges. -/
def categorize_time : Option PyTimestamp → Option String
  | none => none
  | some dt =>
    let hour := dt.hour
    some (if 8 ≤ hour ∧ hour < 12 then ("8am-12pm")
      else if 12 ≤ hour ∧ hour < 17 then ("12pm-5pm")
      else if 17 ≤ hour ∧ hour < 23 then ("5pm-11pm")
      else ("11pm-8am"))

/-- The hardcoded 2025 Saskatchewan holiday list of `is_public_holiday`. -/
def holidays_2025 : List PyDate :=
  [⟨2025, 1, 1⟩, ⟨2025, 2, 17⟩, ⟨2025, 4, 18⟩, ⟨2025, 5, 19⟩,
   ⟨2025, 7, 1⟩, ⟨2025, 8, 4⟩, ⟨2025, 9, 1⟩, ⟨2025, 10, 13⟩,
   ⟨2025, 11, 11⟩, ⟨2025, 12, 25⟩]

/-- `is_public_holiday` of the source: `None` for a missing date, else a
membership test against the ten hardcoded dates. -/
def is_public_holiday : Option PyDate → Option String
  | none => none
  | some d => some (if d ∈ holidays_2025 then ("Yes") else ("No"))

/-- Python comparison `x >= k` where `x` may be NaN (`none`): every
comparison with NaN evaluates to False. -/
def floatGe : Option Nat → Nat → Bool
  | none, _ => false
  | some x, k => k ≤ x

/-- The lambda `"Weekend" if x >= 5 else "Weekday"` that the source applies
to `.dt.dayofweek`.  For a NaT timestamp `.dt.dayofweek` yields NaN, and
`NaN >= 5` is False in Python, so such a row gets "Weekday". -/
def weekendOrWeekday (x : Option Nat) : String :=
  if floatGe x 5 then ("Weekend") else ("Weekday")

/-- `clean_data`'s per-value action on the ADDRESS column: the two literal
`str.replace(..., regex=False)` substitutions, in source order. -/
def clean_address (s : String) : String :=
  String.mk (pyReplace (("August St,").data) (("Angus St,").data)
    (pyReplace (("Augus St,").data) (("Angus St,").data) s.data))

/-!  ### Tables and the processing pipeline

A raw table is a list of rows together with flags recording whether the
`VIOLATION_DATETIME` and `VIOL_LOC` columns are present (the two columns
`process_dataframe` reads); the remaining source columns are carried
opaquely as key/value pairs, assumed not to collide with the derived
column names.  A `none` cell is a pandas missing value; a row of a table
without a column holds `none` there (this is `wfTable`), which also models
the missing-value fill of `pd.concat`.
-/

/-- One row of a parsed source table. -/
structure RawRow where
  violation_datetime : Option String
  viol_loc : Option String
  rest : List (String × Option String)
deriving DecidableEq

/-- A parsed source table: column-presence flags plus rows. -/
structure RawTable where
  hasDT : Bool
  hasVL : Bool
  rows : List RawRow
deriving DecidableEq

/-- Rows of a table hold `none` in columns the table does not have. -/
def wfTable (t : RawTable) : Prop :=
  (t.hasDT = false → ∀ r ∈ t.rows, r.violation_datetime = none) ∧
  (t.hasVL = false → ∀ r ∈ t.rows, r.viol_loc = none)

instance (t : RawTable) : Decidable (wfTable t) := by
  unfold wfTable; infer_instance

/-- One row after `process_dataframe`: source columns plus the derived
columns.  A derived cell is `none` both when its column was never created
(the guarding source column was absent) and when its value is a pandas
missing value — exactly the two situations pandas renders as NaN after a
later concatenation. -/
structure ProcRow where
  violation_datetime : Option PyTimestamp
  viol_loc : Option String
  rest : List (String × Option String)
  violation_date : Option PyDate
  violation_time : Option PyTime
  time_category : Option String
  day_of_week : Option String
  weekend_or_weekday : Option String
  is_public_holiday : Option String
  location : Option String
  address : Option String
deriving DecidableEq

/-- A processed table. -/
structure ProcTable where
  hasDT : Bool
  hasVL : Bool
  rows : List ProcRow
deriving DecidableEq

/-- The row-wise action of `process_dataframe`:  when the
`VIOLATION_DATETIME` column exists it is converted in place with
`pd.to_datetime(..., errors="coerce")` and the six timestamp-derived
columns are added; when `VIOL_LOC` exists it is split into LOCATION and
ADDRESS; `clean_data` then rewrites the ADDRESS column (which exists
exactly when `VIOL_LOC` did). -/
def processRow (hasDT hasVL : Bool) (r : RawRow) : ProcRow :=
  let pdt := if hasDT then r.violation_datetime.bind parseDT else none
  { violation_datetime := pdt
    viol_loc := r.viol_loc
    rest := r.rest
    violation_date := pdt.map tsDate
    violation_time := pdt.map tsTime
    time_category := if hasDT then categorize_time pdt else none
    day_of_week := pdt.map dayName
    weekend_or_weekday := if hasDT then some (weekendOrWeekday (pdt.map dayofweek)) else none
    is_public_holiday := if hasDT then is_public_holiday (pdt.map tsDate) else none
    location := if hasVL then (parse_location r.viol_loc).1 else none
    address := if hasVL then ((parse_location r.viol_loc).2).map clean_address else none }

/-- `process_dataframe`: every derivation is element-wise over the rows,
guarded by the presence of the relevant source column. -/
def processTable (t : RawTable) : ProcTable :=
  ⟨t.hasDT, t.hasVL, t.rows.map (processRow t.hasDT t.hasVL)⟩

/-- `pd.concat(dataframes, ignore_index=True)`: rows in input order, the
column set is the union of the inputs. -/
def concatTables (ts : List RawTable) : RawTable :=
  ⟨ts.any (fun t => t.hasDT), ts.any (fun t => t.hasVL),
   (ts.map (fun t => t.rows)).flatten⟩

/-- `pd.concat` on already-processed tables (used to state that deriving
commutes with combination). -/
def concatProcTables (p q : ProcTable) : ProcTable :=
  ⟨p.hasDT || q.hasDT, p.hasVL || q.hasVL, p.rows ++ q.rows⟩

/-- `combine_dataframes`: an empty input list yields an empty table (and
no processing); otherwise concatenate and process. -/
def combine_dataframes (dfs : List RawTable) : ProcTable :=
  if dfs.isEmpty then ⟨false, false, []⟩
  else processTable (concatTables dfs)

/-!  ### Resource discovery and the top-level run -/

/-- A CKAN resource descriptor, with the three keys the code reads. -/
structure Resource where
  url : Option String
  name : Option String
  fmt : Option String
deriving DecidableEq

/-- Outcome of the metadata request in `get_dataset_resources`: the
transport can fail (an exception from `requests`), the JSON body can be
malformed (missing keys / non-JSON, raising inside the `try`), or a
payload arrives with its success flag and resource list. -/
inductive ApiResponse where
  | transportError : ApiResponse
  | malformed : ApiResponse
  | payload : Bool → List Resource → ApiResponse

/-- `get_dataset_resources`: on any failure the exception handler (or the
API-error branch) returns `[]`; on success the resources are filtered by
`r.get("format", "").upper() == "XLS"`. -/
def get_dataset_resources : ApiResponse → List Resource
  | ApiResponse.transportError => []
  | ApiResponse.malformed => []
  | ApiResponse.payload false _ => []
  | ApiResponse.payload true rs =>
    rs.filter (fun r => pyUpper (r.fmt.getD ("")) == ("XLS"))

/-- Environment of one run: the metadata response, the outcome of each
file download (by url and destination filename), and the outcome of
parsing each downloaded file (by filename). -/
structure RunEnv where
  api : ApiResponse
  downloadOk : String → String → Bool
  parseResult : String → Option RawTable

/-- The download loop of `download_and_combine`: resources without a url
are skipped; `<name>.xls` (with the positional default name) is kept when
the download succeeds. -/
def downloadLoop (env : RunEnv) : Nat → List Resource → List String
  | _, [] => []
  | i, r :: rs =>
    match r.url with
    | none => downloadLoop env (i + 1) rs
    | some u =>
      let filename := (r.name.getD (("parking_data_") ++ toString (i + 1))) ++ (".xls")
      if env.downloadOk u filename then filename :: downloadLoop env (i + 1) rs
      else downloadLoop env (i + 1) rs

/-- `download_and_combine`: returns the boolean outcome together with the
combined table that was written to disk (`none` when nothing was
written).  Each guard mirrors an early `return False` of the source; the
surrounding `try/except` also resolves to `False`, which the embedding
renders by totality. -/
def download_and_combine (env : RunEnv) : Bool × Option ProcTable :=
  if (get_dataset_resources env.api).isEmpty then (false, none)
  else if (downloadLoop env 0 (get_dataset_resources env.api)).isEmpty then (false, none)
  else if ((downloadLoop env 0 (get_dataset_resources env.api)).filterMap
      env.parseResult).isEmpty then (false, none)
  else (true, some (combine_dataframes
    ((downloadLoop env 0 (get_dataset_resources env.api)).filterMap env.parseResult)))

/-- Case-insensitive exact comparison of two strings, as the spec words
the format filter. -/
def eqCaseInsensitive (s t : String) : Bool := pyUpper s == pyUpper t

/-!  ### Concrete fixtures used by witnesses and counterexamples -/

def rowEmpty : RawRow := ⟨none, none, []⟩

def rowMarch15 : RawRow :=
  ⟨some ("15/03/2025 10:30:00"), some ("WEST SIDE 1800 ANGUS ST"), []⟩

def rowBadDT : RawRow := ⟨some ("not a date"), none, []⟩

def tblDT : RawTable := ⟨true, true, [rowMarch15]⟩

def tblDT2 : RawTable := ⟨true, false, [rowBadDT]⟩

def tblNoDT : RawTable := ⟨false, false, [rowEmpty]⟩

def envNoResources : RunEnv :=
  ⟨ApiResponse.payload true [], fun _ _ => false, fun _ => none⟩

def envNoParse : RunEnv :=
  ⟨ApiResponse.payload true [⟨some ("http://x/q1"), some ("q1"), some ("XLS")⟩],
   fun _ _ => true, fun _ => none⟩

/-!  ### Helper lemmas about the split machinery -/

theorem pyDigit_not_space {c : Char} (h : pyDigit c = true) : pySpace c = false := by
  simp only [pyDigit, Bool.and_eq_true, decide_eq_true_eq] at h
  simp only [pySpace, Bool.or_eq_false_iff, decide_eq_false_iff_not]
  omega

theorem pyStrip_eq_nil_iff {l : List Char} :
    pyStrip l = [] ↔ ∀ c ∈ l, pySpace c = true := by
  unfold pyStrip
  rw [List.reverse_eq_nil_iff, List.dropWhile_eq_nil_iff]
  constructor
  · intro h c hc
    have hc2 : c ∈ List.takeWhile pySpace l ++ List.dropWhile pySpace l := by
      rw [List.takeWhile_append_dropWhile]; exact hc
    rcases List.mem_append.mp hc2 with h1 | h1
    · exact List.mem_takeWhile_imp h1
    · exact h c (List.mem_reverse.mpr h1)
  · intro h c hc
    exact h c (List.dropWhile_sublist pySpace |>.mem (List.mem_reverse.mp hc))

theorem head_dropWhile_false {p : Char → Bool} :
    ∀ {l : List Char} {c : Char} {rest : List Char},
      l.dropWhile p = c :: rest → p c = false
  | [], _, _, h => by simp at h
  | a :: t, c, rest, h => by
    rw [List.dropWhile_cons] at h
    by_cases ha : p a
    · rw [if_pos ha] at h
      exact head_dropWhile_false h
    · rw [if_neg ha] at h
      cases h
      exact Bool.eq_false_iff.mpr ha

theorem strip_suffix_not_nil {x g2 : List Char}
    (hs : g2 <:+ pyStrip x) (hne : g2 ≠ []) : pyStrip g2 ≠ [] := by
  intro hstrip
  rw [pyStrip_eq_nil_iff] at hstrip
  obtain ⟨pre, hpre⟩ := hs
  -- the last character of `pyStrip x` fails `pySpace`, and it lies in `g2`
  rcases hrev : g2.reverse with _ | ⟨c, grest⟩
  · exact hne (by simpa using congrArg List.reverse hrev)
  · have hx : (x.dropWhile pySpace).reverse.dropWhile pySpace = c :: (grest ++ pre.reverse) := by
      have h1 : (pyStrip x).reverse = (x.dropWhile pySpace).reverse.dropWhile pySpace := by
        unfold pyStrip; rw [List.reverse_reverse]
      rw [← h1, ← hpre, List.reverse_append, hrev]
      rfl
    have hc : pySpace c = false := head_dropWhile_false hx
    have hcg : c ∈ g2 := List.mem_reverse.mp (hrev ▸ List.mem_cons_self c grest)
    rw [hstrip c hcg] at hc
    exact Bool.true_eq_false.mp hc

theorem strip_digit_head_not_nil {c : Char} {cs : List Char}
    (h : pyDigit c = true) : pyStrip (c :: cs) ≠ [] := by
  intro hstrip
  rw [pyStrip_eq_nil_iff] at hstrip
  have := hstrip c (List.mem_cons_self c cs)
  rw [pyDigit_not_space h] at this
  exact Bool.false_eq_true.mp this

theorem matchNumThenRest_head {s : List Char} (h : matchNumThenRest s = true) :
    ∃ c cs, s = c :: cs ∧ pyDigit c = true := by
  simp only [matchNumThenRest, Bool.and_eq_true, decide_eq_true_eq] at h
  obtain ⟨h1, _⟩ := h
  cases hs : s with
  | nil => rw [hs] at h1; simp at h1
  | cons c cs =>
    rw [hs] at h1
    by_cases hc : pyDigit c
    · exact ⟨c, cs, rfl, hc⟩
    · rw [List.takeWhile_cons_of_neg hc] at h1
      exact absurd rfl h1

theorem reSplitNum_addr_digit :
    ∀ {rest acc g1 g2 : List Char}, reSplitNum acc rest = some (g1, g2) →
      ∃ c cs, g2 = c :: cs ∧ pyDigit c = true
  | [], acc, g1, g2, h => by simp [reSplitNum] at h
  | c :: cs, acc, g1, g2, h => by
    rw [reSplitNum] at h
    split at h
    · rename_i hcond
      cases h
      exact matchNumThenRest_head hcond.2.2
    · split at h
      · exact absurd h (by simp)
      · exact reSplitNum_addr_digit h

theorem backtrackRest_suffix :
    ∀ {n : Nat} {s r : List Char}, backtrackRest s n = some r → r ≠ [] ∧ r <:+ s
  | 0, s, r, h => by simp [backtrackRest] at h
  | Nat.succ k, s, r, h => by
    rw [backtrackRest] at h
    split at h
    · rename_i hcond
      cases h
      exact ⟨hcond.1, List.drop_suffix _ _⟩
    · exact backtrackRest_suffix h

theorem spaceThenRest_suffix {s r : List Char} (h : spaceThenRest s = some r) :
    r ≠ [] ∧ r <:+ s :=
  backtrackRest_suffix h

theorem stripCI_suffix :
    ∀ {w s o r : List Char}, stripCI w s = some (o, r) → r <:+ s
  | [], s, o, r, h => by
    rw [stripCI] at h
    cases h
    exact List.suffix_refl s
  | a :: as, [], o, r, h => by simp [stripCI] at h
  | a :: as, c :: cs, o, r, h => by
    rw [stripCI] at h
    split at h
    · rw [Option.map_eq_some'] at h
      obtain ⟨⟨o', r'⟩, h1, h2⟩ := h
      cases h2
      exact (stripCI_suffix h1).trans (List.suffix_cons c cs)
    · exact absurd h (by simp)

theorem matchDirection_addr :
    ∀ {ws : List (List Char)} {s g1 g2 : List Char},
      matchDirection ws s = some (g1, g2) → g2 ≠ [] ∧ g2 <:+ s
  | [], s, g1, g2, h => by simp [matchDirection] at h
  | w :: ws, s, g1, g2, h => by
    rw [matchDirection] at h
    split at h
    · rename_i o r hw
      split at h
      · rename_i rem hrem
        cases h
        obtain ⟨h1, h2⟩ := spaceThenRest_suffix hrem
        exact ⟨h1, h2.trans (stripCI_suffix hw)⟩
      · exact matchDirection_addr h
    · exact matchDirection_addr h

theorem splitRaw_addr_not_nil {x a : List Char}
    (hx : pyStrip x ≠ []) (h : (splitRaw (pyStrip x)).2 = some a) : a ≠ [] := by
  unfold splitRaw at h
  split at h
  · rename_i g1 g2 hre
    by_cases hd : digitLeads (pyStrip g1)
    · rw [if_pos hd] at h
      cases h; exact hx
    · rw [if_neg hd] at h
      cases h
      obtain ⟨c, cs, hg2, hc⟩ := reSplitNum_addr_digit hre
      rw [hg2]
      exact strip_digit_head_not_nil hc
  · split at h
    · rename_i g1 g2 hdir
      cases h
      obtain ⟨h1, h2⟩ := matchDirection_addr hdir
      exact strip_suffix_not_nil h2 h1
    · cases h; exact hx

/-!  ### Claims C1-C5 -/

/-- C1 (counterexample): the split as implemented does not follow the
spec's heuristic on the empty string.  Both regex attempts fail, so the
whole (empty) string becomes the address; the heuristic's formatting rule
would title-case it and append ", Regina, Saskatchewan", but the code's
`if address:` guard is falsy for the empty string, which is returned
unchanged. -/
theorem C1_split_cex :
    parse_location (some ("")) = (none, some ("")) ∧
    claimHeuristic (some ("")) = (none, some (", Regina, Saskatchewan")) ∧
    parse_location (some ("")) ≠ claimHeuristic (some ("")) := by
  refine ⟨by decide, by decide, by decide⟩

/-- C1 (amended): on a null input the split yields `(null, null)`; on any
input that is nonempty after stripping, the code agrees exactly with the
spec's four-step heuristic including its formatting rule
(`claimHeuristic`); on an input that strips to the empty string the
result is `(null, "")`, without title-casing or the literal suffix.  The
spec's three literal examples hold. -/
theorem C1_split_follows_heuristic :
    parse_location none = (none, none) ∧
    (∀ v : String, pyStrip v.data ≠ [] →
      parse_location (some v) = claimHeuristic (some v)) ∧
    (∀ v : String, pyStrip v.data = [] →
      parse_location (some v) = (none, some (""))) ∧
    parse_location (some ("WEST SIDE 1800 ANGUS ST")) =
      (some ("West Side"), some ("1800 Angus St, Regina, Saskatchewan")) ∧
    parse_location (some ("IN FRONT OF DARKE CRES")) =
      (some ("In Front Of"), some ("Darke Cres, Regina, Saskatchewan")) ∧
    parse_location (some ("1800 ANGUS ST")) =
      (none, some ("1800 Angus St, Regina, Saskatchewan")) := by
  refine ⟨rfl, ?_, ?_, by decide, by decide, by decide⟩
  · intro v h
    simp only [parse_location, claimHeuristic]
    rcases hsp : splitRaw (pyStrip v.data) with ⟨lopt, aopt⟩
    simp only [Prod.mk.injEq]
    constructor
    · cases lopt with
      | none => rfl
      | some l =>
        by_cases hl : l = []
        · subst hl; rfl
        · simp only [Option.map_some', if_pos hl]
    · cases aopt with
      | none => rfl
      | some a =>
        have ha : a ≠ [] :=
          splitRaw_addr_not_nil h (by rw [hsp])
        simp only [Option.map_some', if_pos ha]
  · intro v h
    simp only [parse_location]
    rw [h]
    rfl

/-- C1 (witness for the amended theorem). -/
theorem C1_split_witness :
    (pyStrip ("BEHIND 123 MAIN ST").data ≠ [] ∧
      parse_location (some ("BEHIND 123 MAIN ST")) =
        claimHeuristic (some ("BEHIND 123 MAIN ST"))) ∧
    (pyStrip ("   ").data = [] ∧
      parse_location (some ("   ")) = (none, some (""))) :=
  ⟨⟨by decide, C1_split_follows_heuristic.2.1 ("BEHIND 123 MAIN ST") (by decide)⟩,
   ⟨by decide, C1_split_follows_heuristic.2.2.1 ("   ") (by decide)⟩⟩

/-- C2: the time-of-day category is exactly the four-bucket table of the
spec, with the stated half-open boundaries, and a missing timestamp maps
to a missing category. -/
theorem C2_time_category :
    categorize_time none = none ∧
    ∀ ts : PyTimestamp,
      (8 ≤ ts.hour → ts.hour < 12 → categorize_time (some ts) = some ("8am-12pm")) ∧
      (12 ≤ ts.hour → ts.hour < 17 → categorize_time (some ts) = some ("12pm-5pm")) ∧
      (17 ≤ ts.hour → ts.hour < 23 → categorize_time (some ts) = some ("5pm-11pm")) ∧
      (ts.hour = 23 ∨ ts.hour < 8 → categorize_time (some ts) = some ("11pm-8am")) := by
  refine ⟨rfl, fun ts => ⟨?_, ?_, ?_, ?_⟩⟩ <;>
    · intro h1
      first
      | (intro h2
         simp only [categorize_time, Option.some.injEq]
         split_ifs with a b c <;> first | rfl | omega)
      | (simp only [categorize_time, Option.some.injEq]
         split_ifs with a b c <;> first | rfl | omega)

/-- C2 (witness): the boundary hours 8, 12, 17, 23 and 0. -/
theorem C2_time_category_witness :
    categorize_time (some ⟨2025, 1, 1, 8, 0, 0⟩) = some ("8am-12pm") ∧
    categorize_time (some ⟨2025, 1, 1, 12, 0, 0⟩) = some ("12pm-5pm") ∧
    categorize_time (some ⟨2025, 1, 1, 17, 0, 0⟩) = some ("5pm-11pm") ∧
    categorize_time (some ⟨2025, 1, 1, 23, 0, 0⟩) = some ("11pm-8am") ∧
    categorize_time (some ⟨2025, 1, 1, 0, 0, 0⟩) = some ("11pm-8am") :=
  ⟨(C2_time_category.2 _).1 (by decide) (by decide),
   (C2_time_category.2 _).2.1 (by decide) (by decide),
   (C2_time_category.2 _).2.2.1 (by decide) (by decide),
   (C2_time_category.2 _).2.2.2 (Or.inl rfl),
   (C2_time_category.2 _).2.2.2 (Or.inr (by decide))⟩

/-- C3 (counterexample): a row whose raw VIOLATION_DATETIME fails to parse
gets a NaT timestamp, yet its weekend/weekday flag is the string
"Weekday": pandas renders `.dt.dayofweek` of NaT as NaN, and the Python
comparison `NaN >= 5` is False, so the lambda returns "Weekday" instead of
propagating the missing value. -/
theorem C3_weekend_cex :
    (processRow true false ⟨some ("not a date"), none, []⟩).violation_datetime = none ∧
    (processRow true false ⟨some ("not a date"), none, []⟩).weekend_or_weekday =
      some ("Weekday") := by
  refine ⟨by decide, by decide⟩

/-- C3 (amended): the flag is "Weekend" exactly for weekday indices ≥ 5
and "Weekday" for the others; a null timestamp does NOT propagate — its
NaN index compares False against 5, so such rows are flagged "Weekday". -/
theorem C3_weekend_flag :
    (∀ x : Nat, 5 ≤ x → weekendOrWeekday (some x) = ("Weekend")) ∧
    (∀ x : Nat, x < 5 → weekendOrWeekday (some x) = ("Weekday")) ∧
    weekendOrWeekday none = ("Weekday") ∧
    (∀ (vl : Bool) (r : RawRow),
      (processRow true vl r).weekend_or_weekday =
        some (weekendOrWeekday ((r.violation_datetime.bind parseDT).map dayofweek))) := by
  refine ⟨?_, ?_, rfl, fun vl r => rfl⟩
  · intro x h
    simp only [weekendOrWeekday, floatGe]
    rw [if_pos (by simpa using h)]
  · intro x h
    simp only [weekendOrWeekday, floatGe]
    rw [if_neg (by simpa using Nat.not_le_of_lt h)]

/-- C3 (witness for the amended theorem). -/
theorem C3_weekend_flag_witness :
    weekendOrWeekday (some 6) = ("Weekend") ∧ weekendOrWeekday (some 3) = ("Weekday") :=
  ⟨C3_weekend_flag.1 6 (by decide), C3_weekend_flag.2.1 3 (by decide)⟩

/-- C4: the holiday flag is "Yes" exactly on the ten hardcoded 2025
Saskatchewan dates, "No" on every other date, and null on a null date. -/
theorem C4_public_holiday :
    is_public_holiday none = none ∧
    (∀ d : PyDate,
      is_public_holiday (some d) = some ("Yes") ∨
      is_public_holiday (some d) = some ("No")) ∧
    (∀ d : PyDate, is_public_holiday (some d) = some ("Yes") ↔
      (d = ⟨2025, 1, 1⟩ ∨ d = ⟨2025, 2, 17⟩ ∨ d = ⟨2025, 4, 18⟩ ∨
       d = ⟨2025, 5, 19⟩ ∨ d = ⟨2025, 7, 1⟩ ∨ d = ⟨2025, 8, 4⟩ ∨
       d = ⟨2025, 9, 1⟩ ∨ d = ⟨2025, 10, 13⟩ ∨ d = ⟨2025, 11, 11⟩ ∨
       d = ⟨2025, 12, 25⟩)) ∧
    (∀ d : PyDate, d ∉ holidays_2025 → is_public_holiday (some d) = some ("No")) := by
  have hm : ∀ d : PyDate, d ∈ holidays_2025 ↔
      (d = ⟨2025, 1, 1⟩ ∨ d = ⟨2025, 2, 17⟩ ∨ d = ⟨2025, 4, 18⟩ ∨
       d = ⟨2025, 5, 19⟩ ∨ d = ⟨2025, 7, 1⟩ ∨ d = ⟨2025, 8, 4⟩ ∨
       d = ⟨2025, 9, 1⟩ ∨ d = ⟨2025, 10, 13⟩ ∨ d = ⟨2025, 11, 11⟩ ∨
       d = ⟨2025, 12, 25⟩) := by
    intro d; simp [holidays_2025]
  refine ⟨rfl, ?_, ?_, ?_⟩
  · intro d
    by_cases h : d ∈ holidays_2025
    · left; simp [is_public_holiday, h]
    · right; simp [is_public_holiday, h]
  · intro d
    by_cases h : d ∈ holidays_2025
    · simp only [is_public_holiday, if_pos h, Option.some.injEq]
      constructor
      · intro _; exact (hm d).mp h
      · intro _; trivial
    · simp only [is_public_holiday, if_neg h, Option.some.injEq]
      constructor
      · intro hh; exact absurd hh (by decide)
      · intro hh; exact absurd ((hm d).mpr hh) h
  · intro d h
    simp [is_public_holiday, h]

/-- C4 (witness): the hypothesis-bearing conjunct at a non-holiday date. -/
theorem C4_public_holiday_witness :
    is_public_holiday (some ⟨2025, 3, 15⟩) = some ("No") :=
  C4_public_holiday.2.2.2 ⟨2025, 3, 15⟩ (by decide)

/-- C5: the typo correction replaces "Augus St," and "August St," by
"Angus St," in the derived address, both on the two literal examples of
the spec and through the full row pipeline (split, title-case, then
correction). -/
theorem C5_typo_correction :
    clean_address ("123 Augus St, Regina, Saskatchewan") =
      ("123 Angus St, Regina, Saskatchewan") ∧
    clean_address ("123 August St, Regina, Saskatchewan") =
      ("123 Angus St, Regina, Saskatchewan") ∧
    (processRow false true ⟨none, some ("123 AUGUS ST"), []⟩).address =
      some ("123 Angus St, Regina, Saskatchewan") ∧
    (processRow false true ⟨none, some ("123 AUGUST ST"), []⟩).address =
      some ("123 Angus St, Regina, Saskatchewan") := by
  refine ⟨by decide, by decide, by decide, by decide⟩

/-!  ### Claims C6-C10 -/

/-- The `VIOL_LOC` flag of `processRow` is irrelevant on a row whose
`VIOL_LOC` cell is missing: the split of a missing value is `(None, None)`
either way. -/
theorem processRow_vl_any (f v1 v2 : Bool) (r : RawRow) (h : r.viol_loc = none) :
    processRow f v1 r = processRow f v2 r := by
  simp [processRow, h, parse_location]

/-- C6 (counterexample): deriving does not commute with concatenation when
one table has the `VIOLATION_DATETIME` column and the other does not.
Combining first gives the column-less table's rows a NaT timestamp, whose
weekend flag becomes the string "Weekday" (`NaN >= 5` is False); deriving
first leaves those rows without the flag column, so concatenation fills a
missing value. -/
theorem C6_combine_cex :
    wfTable tblDT ∧ wfTable tblNoDT ∧
    processTable (concatTables [tblDT, tblNoDT]) ≠
      concatProcTables (processTable tblDT) (processTable tblNoDT) ∧
    (processTable (concatTables [tblDT, tblNoDT])).rows.map
        (fun r => r.weekend_or_weekday) = [some ("Weekend"), some ("Weekday")] ∧
    (concatProcTables (processTable tblDT) (processTable tblNoDT)).rows.map
        (fun r => r.weekend_or_weekday) = [some ("Weekend"), none] := by
  refine ⟨by decide, by decide, by decide, by decide, by decide⟩

/-- C6 (amended): deriving commutes with concatenation for any two
well-formed parsed tables that agree on the presence of the
`VIOLATION_DATETIME` column (mismatched `VIOL_LOC` presence is harmless
because the split of a missing value is missing on both sides). -/
theorem C6_process_commutes_with_concat (A B : RawTable)
    (hdt : A.hasDT = B.hasDT) (hA : wfTable A) (hB : wfTable B) :
    processTable (concatTables [A, B]) =
      concatProcTables (processTable A) (processTable B) := by
  obtain ⟨-, hA2⟩ := hA
  obtain ⟨-, hB2⟩ := hB
  have hmapA : List.map (processRow (A.hasDT || B.hasDT) (A.hasVL || B.hasVL)) A.rows =
      List.map (processRow A.hasDT A.hasVL) A.rows := by
    apply List.map_congr_left
    intro r hr
    have e1 : (A.hasDT || B.hasDT) = A.hasDT := by rw [hdt, Bool.or_self]
    rw [e1]
    by_cases hav : A.hasVL = true
    · rw [hav, Bool.true_or]
    · have hav2 : A.hasVL = false := by simpa using hav
      exact processRow_vl_any _ _ _ r (hA2 hav2 r hr)
  have hmapB : List.map (processRow (A.hasDT || B.hasDT) (A.hasVL || B.hasVL)) B.rows =
      List.map (processRow B.hasDT B.hasVL) B.rows := by
    apply List.map_congr_left
    intro r hr
    have e1 : (A.hasDT || B.hasDT) = B.hasDT := by rw [hdt, Bool.or_self]
    rw [e1]
    by_cases hbv : B.hasVL = true
    · rw [hbv, Bool.or_true]
    · have hbv2 : B.hasVL = false := by simpa using hbv
      exact processRow_vl_any _ _ _ r (hB2 hbv2 r hr)
  simp only [processTable, concatTables, concatProcTables, List.any_cons, List.any_nil,
    List.map_cons, List.map_nil, List.flatten_cons, List.flatten_nil, List.append_nil,
    Bool.or_false, List.map_append, ProcTable.mk.injEq, true_and]
  rw [hmapA, hmapB]

/-- C6 (witness for the amended theorem). -/
theorem C6_commute_witness :
    tblDT2.hasDT = tblDT.hasDT ∧ wfTable tblDT2 ∧ wfTable tblDT ∧
    processTable (concatTables [tblDT2, tblDT]) =
      concatProcTables (processTable tblDT2) (processTable tblDT) :=
  ⟨rfl, by decide, by decide,
   C6_process_commutes_with_concat tblDT2 tblDT rfl (by decide) (by decide)⟩

/-- C7: every failure path of `download_and_combine` resolves to `False`
(the embedding is a total function into a boolean result, mirroring the
all-catching `try/except`), and a failed run never writes the combined
output; in particular an empty resource list from discovery reports
failure with no output file. -/
theorem C7_run_failure (env : RunEnv) :
    (get_dataset_resources env.api = [] → download_and_combine env = (false, none)) ∧
    ((download_and_combine env).1 = false → (download_and_combine env).2 = none) := by
  constructor
  · intro h
    simp [download_and_combine, h]
  · intro h
    simp only [download_and_combine] at h ⊢
    split_ifs at h ⊢ <;> simp_all

/-- C7 (witness). -/
theorem C7_run_failure_witness :
    get_dataset_resources envNoResources.api = [] ∧
    download_and_combine envNoResources = (false, none) :=
  ⟨rfl, (C7_run_failure envNoResources).1 rfl⟩

/-- C8: discovery returns exactly the resources whose declared format
equals "XLS" case-insensitively, and every failure shape (transport error,
malformed body, API-reported failure) yields the empty list instead of
raising. -/
theorem C8_resource_discovery :
    get_dataset_resources ApiResponse.transportError = [] ∧
    get_dataset_resources ApiResponse.malformed = [] ∧
    (∀ rs : List Resource, get_dataset_resources (ApiResponse.payload false rs) = []) ∧
    (∀ rs : List Resource, get_dataset_resources (ApiResponse.payload true rs) =
      rs.filter (fun r => eqCaseInsensitive (r.fmt.getD ("")) ("XLS"))) := by
  refine ⟨rfl, rfl, fun rs => rfl, fun rs => rfl⟩

/-- C9: combination of parsed tables keeps the rows in input-table order
(each table's internal order preserved), takes the union of the column
sets, leaves `none` (the missing-value marker) in the cells of columns a
source table did not have, produces the empty table from an empty input
list, and the run reports failure when no table parses. -/
theorem C9_combination :
    combine_dataframes [] = ⟨false, false, []⟩ ∧
    (∀ ts : List RawTable, (concatTables ts).rows = (ts.map (fun t => t.rows)).flatten) ∧
    (∀ A B : RawTable, (concatTables [A, B]).rows = A.rows ++ B.rows) ∧
    (∀ ts : List RawTable,
      (concatTables ts).hasDT = ts.any (fun t => t.hasDT) ∧
      (concatTables ts).hasVL = ts.any (fun t => t.hasVL)) ∧
    (∀ (ts : List RawTable) (t : RawTable), t ∈ ts → wfTable t → t.hasDT = false →
      ∀ r ∈ t.rows, r ∈ (concatTables ts).rows ∧ r.violation_datetime = none) ∧
    (∀ env : RunEnv,
      (downloadLoop env 0 (get_dataset_resources env.api)).filterMap env.parseResult = [] →
      download_and_combine env = (false, none)) := by
  refine ⟨rfl, fun ts => rfl, ?_, fun ts => ⟨rfl, rfl⟩, ?_, ?_⟩
  · intro A B
    simp [concatTables]
  · intro ts t ht hwf hdt r hr
    refine ⟨?_, hwf.1 hdt r hr⟩
    simp only [concatTables]
    exact List.mem_flatten.mpr ⟨t.rows, List.mem_map_of_mem _ ht, hr⟩
  · intro env h
    simp only [download_and_combine]
    split_ifs with h1 h2 h3 <;> simp_all

/-- C9 (witness). -/
theorem C9_combination_witness :
    (rowEmpty ∈ (concatTables [tblNoDT]).rows ∧ rowEmpty.violation_datetime = none) ∧
    download_and_combine envNoParse = (false, none) :=
  ⟨C9_combination.2.2.2.2.1 [tblNoDT] tblNoDT (by decide) (by decide) rfl rowEmpty (by decide),
   C9_combination.2.2.2.2.2 envNoParse (by decide)⟩

/-- C10: processing only adds derived columns: the source `VIOL_LOC` cell
and all opaque source columns pass through unchanged, the only in-place
replacement is `VIOLATION_DATETIME` by its parsed (coerce-to-null) value,
the LOCATION column is exactly the split's first output (untouched by the
typo correction), and only the derived ADDRESS column is rewritten by it;
table shape (flags and row count) is preserved. -/
theorem C10_frame (f g : Bool) (r : RawRow) (t : RawTable) :
    (processRow f g r).viol_loc = r.viol_loc ∧
    (processRow f g r).rest = r.rest ∧
    (processRow f g r).violation_datetime =
      (if f then r.violation_datetime.bind parseDT else none) ∧
    (processRow f true r).location = (parse_location r.viol_loc).1 ∧
    (processRow f true r).address = ((parse_location r.viol_loc).2).map clean_address ∧
    (processTable t).hasDT = t.hasDT ∧
    (processTable t).hasVL = t.hasVL ∧
    (processTable t).rows.length = t.rows.length := by
  refine ⟨rfl, rfl, rfl, by simp [processRow], by simp [processRow], rfl, rfl, ?_⟩
  simp [processTable]
